import Mathlib

/-!
Verification development for the `dizzied` repository's spatial streaming core.

This file gives a shallow embedding of the two core source files:

* `src/PhysicsManager.js` — `PhysicsChunk` and `PhysicsManager`
  (chunk store construction, trimesh extraction, distance-based
  load/unload streaming with hysteresis);
* `src/LevelManager.js` — `LevelChunk` terrain generation
  (ASCII height-grid parsing, wall/slope classification, slope
  triangulation) in the parts the claims touch.

Modelling conventions:

* JS numbers appearing in geometry are modelled as `ℚ` (the programs only
  ever add/subtract/multiply/divide and compare them); grid heights parsed
  with `parseInt` are modelled as `ℤ`.
* The code compares the Euclidean distance `√distSq` against the radii.
  We embed the comparisons in squared form (`distSq ≤ r^2` for
  `distance ≤ r`), which is equivalent for the nonnegative radii the
  documentation requires (`√s ≤ r ↔ s ≤ r²` and `√s > r ↔ s > r²`
  when `0 ≤ r`); theorems carry the nonnegativity hypotheses where the
  equivalence matters.
* Calls into the external physics world (`world.addBody`,
  `world.removeBody`) and console diagnostics are modelled as an effect
  trace `WorldLog` counting the calls an operation performs; callers
  accumulate the traces of their callees with `WorldLog.merge`.
* The `try { … } catch` around each `world.addBody` in
  `PhysicsChunk.addToWorld` is modelled by a failure oracle
  `fail : ℕ → Bool` saying which loop iterations throw; a throwing
  iteration performs no add and logs one error, exactly as the catch
  block does.
-/

/-- A THREE.Vector3 as used by the code: a 3-vector of numbers. -/
structure Vec3 where
  x : ℚ
  y : ℚ
  z : ℚ
deriving DecidableEq

/-- A THREE.Quaternion (x, y, z, w). -/
structure Quat where
  x : ℚ
  y : ℚ
  z : ℚ
  w : ℚ
deriving DecidableEq

/-- A THREE.Box3: axis-aligned box given by min/max corners. -/
structure Box3 where
  min : Vec3
  max : Vec3
deriving DecidableEq

/-- THREE.Box3.getCenter: the midpoint of min and max. -/
def Box3.getCenter (b : Box3) : Vec3 :=
  ⟨(b.min.x + b.max.x) / 2, (b.min.y + b.max.y) / 2, (b.min.z + b.max.z) / 2⟩

/-- THREE.Box3.getSize: max − min componentwise. -/
def Box3.getSize (b : Box3) : Vec3 :=
  ⟨b.max.x - b.min.x, b.max.y - b.min.y, b.max.z - b.min.z⟩

/-- THREE.Box3.intersectsBox: overlap test, touching boxes intersect. -/
def Box3.intersects (a b : Box3) : Prop :=
  ¬(b.max.x < a.min.x ∨ b.min.x > a.max.x ∨
    b.max.y < a.min.y ∨ b.min.y > a.max.y ∨
    b.max.z < a.min.z ∨ b.min.z > a.max.z)

instance (a b : Box3) : Decidable (Box3.intersects a b) := by
  unfold Box3.intersects; infer_instance

/-- Squared Euclidean distance between two points.
`THREE.Vector3.distanceTo` is the square root of this; the embedding
keeps the square (see the header comment). -/
def distSq (a b : Vec3) : ℚ :=
  (a.x - b.x) ^ 2 + (a.y - b.y) ^ 2 + (a.z - b.z) ^ 2

/-- A CANNON.Trimesh: flat vertex-coordinate list and triangle indices. -/
structure Trimesh where
  vertices : List ℚ
  indices : List ℕ
deriving DecidableEq

/-- One entry of `PhysicsChunk.trimeshes`: the trimesh together with the
source mesh's world transform snapshot (PhysicsManager.js lines 77–83). -/
structure TrimeshData where
  trimesh : Trimesh
  position : Vec3
  quaternion : Quat
  scale : Vec3
  name : String
deriving DecidableEq

/-- A CANNON.Body as configured in `addToWorld` (lines 106–131): a static
body holding one trimesh shape, placed at the stored transform.  The
material constants (friction 0.4, restitution 0.3) are fixed by the code
and carry no information, so they are omitted. -/
structure Body where
  shape : Trimesh
  position : Vec3
  quaternion : Quat
deriving DecidableEq

/-- The body built for a trimesh entry in `addToWorld` lines 106–125:
shape = the stored trimesh, position/quaternion = the stored snapshot. -/
def mkBody (t : TrimeshData) : Body :=
  { shape := t.trimesh, position := t.position, quaternion := t.quaternion }

/-- Effect trace of an operation: how many `world.addBody`,
`world.removeBody`, `console.error` (per-shape failure) and
`console.warn`/no-world warnings it performed. -/
structure WorldLog where
  addCalls : ℕ
  removeCalls : ℕ
  errors : ℕ
  warned : ℕ
deriving DecidableEq

/-- The empty effect trace. -/
def WorldLog.zero : WorldLog := ⟨0, 0, 0, 0⟩

/-- Sequencing two effect traces. -/
def WorldLog.merge (a b : WorldLog) : WorldLog :=
  ⟨a.addCalls + b.addCalls, a.removeCalls + b.removeCalls,
   a.errors + b.errors, a.warned + b.warned⟩

/-- A mesh child as the PhysicsManager consumes it: a THREE.Mesh with a
BufferGeometry.  `localPositions` models `geometry.attributes.position`
(present iff `hasPositionAttr`), `indexBuf` models `geometry.index`,
the `world*` fields model `getWorldPosition/Quaternion/Scale`, and
`bbox` models `new THREE.Box3().setFromObject(child)` (the world-space
AABB THREE computes for the mesh). -/
structure MeshChild where
  isMesh : Bool
  hasGeometry : Bool
  hasPositionAttr : Bool
  localPositions : List Vec3
  indexBuf : Option (List ℕ)
  worldPosition : Vec3
  worldQuaternion : Quat
  worldScale : Vec3
  bbox : Box3
  name : String
deriving DecidableEq

/-- A `PhysicsChunk` (PhysicsManager.js lines 7–15). -/
structure PhysicsChunk where
  id : String
  aabb : Box3
  trimeshes : List TrimeshData
  physicsBodies : List Body
  isLoaded : Bool
  meshChildren : List MeshChild
deriving DecidableEq

/-- Embedding of `PhysicsChunk.getCenter` (lines 167–171). -/
def PhysicsChunk.getCenter (c : PhysicsChunk) : Vec3 :=
  c.aabb.getCenter

/-- Squared version of `PhysicsChunk.getDistanceToPoint` (lines 176–178):
the code returns `getCenter().distanceTo(point)`, i.e. the square root
of this value. -/
def PhysicsChunk.distSqToPoint (c : PhysicsChunk) (p : Vec3) : ℚ :=
  distSq c.getCenter p

/-- Flatten a position attribute into the flat coordinate list pushed by
`generateTrimeshes` lines 42–48. -/
def flattenPositions (ps : List Vec3) : List ℚ :=
  ps.flatMap (fun v => [v.x, v.y, v.z])

/-- Embedding of `PhysicsChunk.generateTrimeshes` (lines 20–94) applied to a list of
mesh children: for each child that is a mesh with geometry, skip it when
the geometry has no position attribute (warn) and otherwise record a
trimesh whose vertices are the untransformed local positions, whose
indices are the index buffer when present and `0,…,count−1` otherwise,
together with the child's world transform snapshot. -/
def PhysicsChunk.generateTrimeshesOf (children : List MeshChild) : List TrimeshData :=
  children.enum.foldl
    (fun acc ic =>
      let i := ic.1
      let child := ic.2
      if child.isMesh = true ∧ child.hasGeometry = true then
        if child.hasPositionAttr = false then acc
        else
          acc ++ [{ trimesh :=
                      { vertices := flattenPositions child.localPositions,
                        indices :=
                          match child.indexBuf with
                          | some ib => ib
                          | none => List.range child.localPositions.length },
                    position := child.worldPosition,
                    quaternion := child.worldQuaternion,
                    scale := child.worldScale,
                    name := if child.name = "" then "trimesh_" ++ toString i else child.name }]
      else acc)
    []

/-- Embedding of `PhysicsChunk.addToWorld` (lines 99–145).  `fail i = true` means the
`try` block of iteration `i` throws (the physics world rejects the body
add); the catch logs one error and the loop continues.  On every
non-failing iteration one `world.addBody` happens and the body is pushed.
After the loop the chunk is marked loaded regardless of failures. -/
def PhysicsChunk.addToWorld (fail : ℕ → Bool) (c : PhysicsChunk) :
    PhysicsChunk × WorldLog :=
  if c.isLoaded = true then (c, WorldLog.zero)
  else
    let r := c.trimeshes.enum.foldl
      (fun (acc : List Body × WorldLog) it =>
        if fail it.1 = true then
          (acc.1, { acc.2 with errors := acc.2.errors + 1 })
        else
          (acc.1 ++ [mkBody it.2], { acc.2 with addCalls := acc.2.addCalls + 1 }))
      ([], WorldLog.zero)
    ({ c with physicsBodies := c.physicsBodies ++ r.1, isLoaded := true }, r.2)

/-- Embedding of `PhysicsChunk.removeFromWorld` (lines 150–162): one `world.removeBody`
per recorded body, then the body list is cleared and the chunk unloaded. -/
def PhysicsChunk.removeFromWorld (c : PhysicsChunk) : PhysicsChunk × WorldLog :=
  if c.isLoaded = false then (c, WorldLog.zero)
  else
    ({ c with physicsBodies := [], isLoaded := false },
     { WorldLog.zero with removeCalls := c.physicsBodies.length })

/-- The per-chunk body of the `forEach` in `PhysicsManager.updateChunks`
(lines 322–334): load when within `loadRadius` and not loaded, unload
when beyond `unloadRadius` and loaded, otherwise leave the chunk alone.
Distance comparisons are embedded in squared form (header comment). -/
def chunkUpdate (loadRadius unloadRadius : ℚ) (p : Vec3) (fail : ℕ → Bool)
    (c : PhysicsChunk) : PhysicsChunk × WorldLog :=
  if c.distSqToPoint p ≤ loadRadius ^ 2 ∧ c.isLoaded = false then
    PhysicsChunk.addToWorld fail c
  else if unloadRadius ^ 2 < c.distSqToPoint p ∧ c.isLoaded = true then
    PhysicsChunk.removeFromWorld c
  else (c, WorldLog.zero)

/-- The `PhysicsManager` (lines 184–203).  `hasWorld` models whether the
world reference (`this.world`, initially `null`) has been set by
`setWorld`; the chunk `Map` is modelled as the list of its entries in
insertion order (the order `forEach` visits them). -/
structure PhysicsManager where
  maxChildrenPerChunk : ℕ
  loadRadius : ℚ
  unloadRadius : ℚ
  chunkSize : ℚ
  chunks : List PhysicsChunk
  hasWorld : Bool
  playerPosition : Vec3
deriving DecidableEq

/-- Embedding of `PhysicsManager.updateChunks` (lines 311–339): copy the player
position; if no world reference is set, warn and return; otherwise run
the hysteresis step on every chunk, threading the physics-world effect
trace.  `fail` gives each chunk (by id) its per-iteration failure oracle. -/
def PhysicsManager.updateChunks (fail : String → ℕ → Bool)
    (pm : PhysicsManager) (p : Vec3) : PhysicsManager × WorldLog :=
  let pm' := { pm with playerPosition := p }
  if pm.hasWorld = false then
    (pm', { WorldLog.zero with warned := 1 })
  else
    let r := pm.chunks.foldl
      (fun (acc : List PhysicsChunk × WorldLog) c =>
        let cw := chunkUpdate pm.loadRadius pm.unloadRadius p (fail c.id) c
        (acc.1 ++ [cw.1], acc.2.merge cw.2))
      ([], WorldLog.zero)
    ({ pm' with chunks := r.1 }, r.2)

/-- A sequence of `update(p)` frames: fold `updateChunks` over a list of
(observer position, failure oracle) pairs, discarding the effect traces. -/
def PhysicsManager.updateSeq (pm : PhysicsManager)
    (steps : List (Vec3 × (String → ℕ → Bool))) : PhysicsManager :=
  steps.foldl (fun pm s => (PhysicsManager.updateChunks s.2 pm s.1).1) pm

/-- Embedding of `PhysicsManager.createSpatialChunks` (lines 250–306) from a fresh
store (the constructor initialises `this.chunks` to an empty `Map`, and
`processGeometry` calls this exactly once on it): returns the list of
chunks the loop `set`s, in creation order.  Grid extents come from
`Math.ceil(size/chunkSize)`; each cell's AABB spans the full Y extent;
a mesh is assigned to every cell whose AABB intersects its own, subject
to the per-chunk cap; only cells with at least one assigned mesh produce
a chunk, and those chunks get their trimeshes generated eagerly. -/
def PhysicsManager.createSpatialChunks (maxChildrenPerChunk : ℕ)
    (chunkSize : ℚ) (meshChildren : List MeshChild) (overallBBox : Box3) :
    List PhysicsChunk :=
  let size := overallBBox.getSize
  let mn := overallBBox.min
  let gridX := (Int.ceil (size.x / chunkSize)).toNat
  let gridZ := (Int.ceil (size.z / chunkSize)).toNat
  (List.range gridX).foldl
    (fun accOuter x =>
      (List.range gridZ).foldl
        (fun acc z =>
          let chunkMin : Vec3 :=
            ⟨mn.x + x * chunkSize, mn.y, mn.z + z * chunkSize⟩
          let chunkMax : Vec3 :=
            ⟨mn.x + (x + 1) * chunkSize, mn.y + size.y, mn.z + (z + 1) * chunkSize⟩
          let chunkAABB : Box3 := ⟨chunkMin, chunkMax⟩
          let assigned := meshChildren.foldl
            (fun (cs : List MeshChild) child =>
              if cs.length ≥ maxChildrenPerChunk then cs
              else if Box3.intersects chunkAABB child.bbox then cs ++ [child]
              else cs)
            []
          if assigned.length > 0 then
            acc ++ [{ id := "chunk_" ++ toString x ++ "_" ++ toString z,
                      aabb := chunkAABB,
                      trimeshes := PhysicsChunk.generateTrimeshesOf assigned,
                      physicsBodies := [],
                      isLoaded := false,
                      meshChildren := assigned }]
          else acc)
        accOuter)
    []

/-! ## LevelManager.js: ASCII parsing and terrain generation -/

/-- Componentwise subtraction, as `THREE.Vector3.subVectors`. -/
def Vec3.sub (a b : Vec3) : Vec3 :=
  ⟨a.x - b.x, a.y - b.y, a.z - b.z⟩

/-- Cross product, as `THREE.Vector3.crossVectors`. -/
def Vec3.cross (a b : Vec3) : Vec3 :=
  ⟨a.y * b.z - a.z * b.y, a.z * b.x - a.x * b.z, a.x * b.y - a.y * b.x⟩

/-- Dot product. -/
def Vec3.dot (a b : Vec3) : ℚ :=
  a.x * b.x + a.y * b.y + a.z * b.z

/-- Whitespace trim of a character list, as JS `String.prototype.trim`
(which strips whitespace and line terminators at both ends). -/
def trimChars (cs : List Char) : List Char :=
  ((cs.dropWhile Char.isWhitespace).reverse.dropWhile Char.isWhitespace).reverse

/-- Split a character list at every character satisfying `p`, keeping
empty segments (the behaviour of `split` on a single separator). -/
def splitOnPred (p : Char → Bool) : List Char → List (List Char)
  | [] => [[]]
  | ch :: rest =>
    let r := splitOnPred p rest
    if p ch then [] :: r
    else
      match r with
      | [] => [[ch]]
      | h :: t => (ch :: h) :: t

/-- Decimal digit run to a natural number. -/
def digitsToNat (ds : List Char) : ℕ :=
  ds.foldl (fun n c => n * 10 + (c.toNat - Char.toNat '0')) 0

/-- JS `parseInt` on a token, decimal radix: skip leading whitespace,
read an optional sign, then a maximal run of leading digits; `none`
models `NaN` (no digit found).  The height grids contain no
`0x`-prefixed token, so `parseInt`'s hexadecimal autodetection is not
modelled. -/
def parseIntJS (cs : List Char) : Option ℤ :=
  let t := cs.dropWhile Char.isWhitespace
  let signRest : ℤ × List Char :=
    match t with
    | '-' :: rest => (-1, rest)
    | '+' :: rest => (1, rest)
    | _ => (1, t)
  let ds := signRest.2.takeWhile Char.isDigit
  if ds.isEmpty then none
  else some (signRest.1 * (digitsToNat ds : ℤ))

/-- Embedding of `parseInt(v) || 0` (LevelManager.js lines 67, 76, 85, 94): `NaN`
falls back to `0` (and `0 || 0` is `0`, so `getD 0` is exact). -/
def parseOr0 (cs : List Char) : ℤ :=
  (parseIntJS cs).getD 0

/-- Embedding of `str.trim().split('\n')`: the trimmed input cut at every newline. -/
def splitLines (s : String) : List (List Char) :=
  splitOnPred (fun c => c = '\n') (trimChars s.toList)

/-- Embedding of `line.trim().split(/\s+/)`, dropping the empty tokens a run of
whitespace produces.  (For an all-blank line JS yields `[""]` where this
yields `[]`; both make every entry of the row parse to the default `0`.) -/
def splitWS (line : List Char) : List (List Char) :=
  (splitOnPred (fun c => c.isWhitespace) (trimChars line)).filter
    (fun t => ¬ t.isEmpty)

/-- One numeric grid of `LevelChunk.loadFromASCII` (lines 63–96): the
input is trimmed and split into lines, each line into whitespace-
separated tokens; entry `(y, x)` of the `n × n` result is the parsed
token when the line and column exist and the pre-initialised default
`0` otherwise (`initializeEmptyChunk`, lines 33–56). -/
def parseGrid (n : ℕ) (s : String) : List (List ℤ) :=
  let lines := (splitLines s).map splitWS
  (List.range n).map (fun y =>
    let row := lines.getD y []
    (List.range n).map (fun x =>
      if x < row.length then parseOr0 (row.getD x []) else 0))

/-- The object grid of `loadFromASCII` (lines 99–106): per line the
trimmed characters; only `'C'`, `'S'`, `'L'` survive, all else becomes
`' '` (also the default for short rows/missing lines). -/
def parseObjects (s : String) : List (List Char) :=
  let lines := splitLines s
  (List.range 8).map (fun y =>
    let chars := trimChars (lines.getD y [])
    (List.range 8).map (fun x =>
      if x < chars.length then
        let c := chars.getD x ' '
        if c = 'C' ∨ c = 'S' ∨ c = 'L' then c else ' '
      else ' '))

/-- The five parsed tables of a `LevelChunk`. -/
structure ChunkTables where
  heightBase : List (List ℤ)
  heightOffset : List (List ℤ)
  sideTextures : List (List ℤ)
  topTextures : List (List ℤ)
  objects : List (List Char)
deriving DecidableEq

/-- Embedding of `LevelChunk.loadFromASCII` (lines 61–107).  The second component is
the list of console messages the function emits: lines 61–107 contain no
`console` call at all, so the parse is silent — malformed tokens fall
back to `0` without any logging. -/
def LevelChunk.loadFromASCII (heightBaseASCII heightOffsetASCII sideTexturesASCII
    topTexturesASCII objectsASCII : String) : ChunkTables × List String :=
  ({ heightBase := parseGrid 16 heightBaseASCII,
     heightOffset := parseGrid 16 heightOffsetASCII,
     sideTextures := parseGrid 8 sideTexturesASCII,
     topTextures := parseGrid 8 topTexturesASCII,
     objects := parseObjects objectsASCII }, [])

/-- Embedding of `LevelChunk.getBlockHeight` (lines 112–115): out-of-grid coordinates
yield `0` (silently — there is no console call there either), otherwise
base + offset. -/
def LevelChunk.getBlockHeight (t : ChunkTables) (x y : ℤ) : ℤ :=
  if x < 0 ∨ 16 ≤ x ∨ y < 0 ∨ 16 ≤ y then 0
  else (t.heightBase.getD y.toNat []).getD x.toNat 0 +
       (t.heightOffset.getD y.toNat []).getD x.toNat 0

/-- Embedding of `Math.max` of the four corner heights, as in `generateBlock`. -/
def max4 (h00 h10 h01 h11 : ℚ) : ℚ :=
  max (max (max h00 h10) h01) h11

/-- Embedding of `Math.min` of the four corner heights. -/
def min4 (h00 h10 h01 h11 : ℚ) : ℚ :=
  min (min (min h00 h10) h01) h11

/-- The wall mesh emitted by `LevelChunk.generateWallBlock`
(lines 185–204): a `BoxGeometry(1, maxHeight, 1)` positioned at
`(worldX + 0.5, maxHeight / 2, worldZ + 0.5)`. -/
structure WallMesh where
  size : Vec3
  position : Vec3
  name : String
deriving DecidableEq

/-- Embedding of `LevelChunk.generateWallBlock` (lines 185–204). -/
def generateWallBlock (worldX worldZ h00 h10 h01 h11 : ℚ) : WallMesh :=
  let maxHeight := max4 h00 h10 h01 h11
  { size := ⟨1, maxHeight, 1⟩,
    position := ⟨worldX + 1/2, maxHeight / 2, worldZ + 1/2⟩,
    name := "wall_" ++ toString worldX ++ "_" ++ toString worldZ }

/-- The 8-vertex position buffer of `generateSlopeBlock`
(lines 224–237), flat `x,y,z` triples: four base corners at `y = 0`
then the four top corners at the individual corner heights. -/
def slopeVertices (worldX worldZ h00 h10 h01 h11 : ℚ) : List ℚ :=
  [worldX, 0, worldZ,
   worldX + 1, 0, worldZ,
   worldX + 1, 0, worldZ + 1,
   worldX, 0, worldZ + 1,
   worldX, h00, worldZ,
   worldX + 1, h10, worldZ,
   worldX + 1, h11, worldZ + 1,
   worldX, h01, worldZ + 1]

/-- A triangle of vertex indices. -/
structure Tri where
  a : ℕ
  b : ℕ
  c : ℕ
deriving DecidableEq

/-- The 12 faces of `generateSlopeBlock` (lines 240–260): 2 bottom,
2 top, and 2 per side wall, in source order. -/
def slopeFaces : List Tri :=
  [⟨0, 2, 1⟩, ⟨0, 3, 2⟩,
   ⟨4, 5, 6⟩, ⟨4, 6, 7⟩,
   ⟨0, 1, 5⟩, ⟨0, 5, 4⟩,
   ⟨1, 2, 6⟩, ⟨1, 6, 5⟩,
   ⟨2, 3, 7⟩, ⟨2, 7, 6⟩,
   ⟨3, 0, 4⟩, ⟨3, 4, 7⟩]

/-- Vertex `i` read back out of a flat position buffer (lines 270–272). -/
def vertexAt (vs : List ℚ) (i : ℕ) : Vec3 :=
  ⟨vs.getD (i * 3) 0, vs.getD (i * 3 + 1) 0, vs.getD (i * 3 + 2) 0⟩

/-- The face normal of lines 274–278:
`cross(v2 − v1, v3 − v1)`.  The source additionally `normalize()`s it,
i.e. rescales by the inverse length — a positive factor that keeps the
zero vector at zero and never changes the direction, which is all the
claims about normals and winding concern; the embedding keeps the
unnormalised cross product so the coordinates stay rational. -/
def triNormal (vs : List ℚ) (f : Tri) : Vec3 :=
  let v1 := vertexAt vs f.a
  let v2 := vertexAt vs f.b
  let v3 := vertexAt vs f.c
  Vec3.cross (Vec3.sub v2 v1) (Vec3.sub v3 v1)

/-- The flat normal buffer of lines 267–284: for each face its
cross-product normal, pushed once per vertex of the face (three copies)
— per-face normals, not interpolated. -/
def slopeNormals (vs : List ℚ) : List ℚ :=
  slopeFaces.flatMap (fun f =>
    let n := triNormal vs f
    [n.x, n.y, n.z, n.x, n.y, n.z, n.x, n.y, n.z])

/-- The UV buffer of lines 287–289. -/
def slopeUVs : List ℚ :=
  (List.range (slopeFaces.length * 3)).flatMap
    (fun i => [((i % 2 : ℕ) : ℚ), (((i / 2) % 2 : ℕ) : ℚ)])

/-- The slope mesh emitted by `generateSlopeBlock`: position, index,
normal and uv buffers plus the mesh name (the mesh sits at the origin,
line 300 — the coordinates are already world coordinates). -/
structure SlopeMesh where
  vertices : List ℚ
  indices : List ℕ
  normals : List ℚ
  uvs : List ℚ
  name : String
deriving DecidableEq

/-- Embedding of `LevelChunk.generateSlopeBlock` (lines 209–311). -/
def generateSlopeBlock (worldX worldZ h00 h10 h01 h11 : ℚ) : Option SlopeMesh :=
  if max4 h00 h10 h01 h11 ≤ 0 then none
  else
    let vs := slopeVertices worldX worldZ h00 h10 h01 h11
    some { vertices := vs,
           indices := slopeFaces.flatMap (fun f => [f.a, f.b, f.c]),
           normals := slopeNormals vs,
           uvs := slopeUVs,
           name := "slope_" ++ toString worldX ++ "_" ++ toString worldZ }

/-- A block mesh: either a wall box or a slope volume. -/
inductive BlockMesh where
  | wall : WallMesh → BlockMesh
  | slope : SlopeMesh → BlockMesh
deriving DecidableEq

/-- Embedding of `LevelChunk.generateBlock` (lines 167–180): skip zero-height cells;
classify as wall when `max(corners) − min(corners) > 4`, else slope. -/
def generateBlock (worldX worldZ h00 h10 h01 h11 : ℚ) : Option BlockMesh :=
  let maxHeight := max4 h00 h10 h01 h11
  if maxHeight ≤ 0 then none
  else
    let heightDiff := max4 h00 h10 h01 h11 - min4 h00 h10 h01 h11
    if heightDiff > 4 then
      some (BlockMesh.wall (generateWallBlock worldX worldZ h00 h10 h01 h11))
    else
      (generateSlopeBlock worldX worldZ h00 h10 h01 h11).map BlockMesh.slope

/-- The cross-product normal the source computes for face `k` of the
slope block at `(worldX, worldZ)` with the given corner heights. -/
def slopeFaceNormal (worldX worldZ h00 h10 h01 h11 : ℚ) (k : ℕ) : Vec3 :=
  triNormal (slopeVertices worldX worldZ h00 h10 h01 h11) (slopeFaces.getD k ⟨0, 0, 0⟩)

/-- The centroid of the slope block's 8 vertices. -/
def slopeBlockCentroid (worldX worldZ h00 h10 h01 h11 : ℚ) : Vec3 :=
  ⟨worldX + 1/2, (h00 + h10 + h01 + h11) / 8, worldZ + 1/2⟩

/-- The centroid of face `k` of the slope block. -/
def slopeFaceCentroid (worldX worldZ h00 h10 h01 h11 : ℚ) (k : ℕ) : Vec3 :=
  let vs := slopeVertices worldX worldZ h00 h10 h01 h11
  let f := slopeFaces.getD k ⟨0, 0, 0⟩
  let v1 := vertexAt vs f.a
  let v2 := vertexAt vs f.b
  let v3 := vertexAt vs f.c
  ⟨(v1.x + v2.x + v3.x) / 3, (v1.y + v2.y + v3.y) / 3, (v1.z + v2.z + v3.z) / 3⟩

/-- Modelled from the spec: "outward-facing winding".  A face of the
slope volume is outward-facing when the normal its winding induces (the
cross product of its two edge vectors, exactly what the source computes)
points from the solid towards the face, i.e. has positive dot product
with the direction from the block centroid to the face centroid. -/
def slopeFaceIsOutward (worldX worldZ h00 h10 h01 h11 : ℚ) (k : ℕ) : Prop :=
  0 < Vec3.dot (slopeFaceNormal worldX worldZ h00 h10 h01 h11 k)
      (Vec3.sub (slopeFaceCentroid worldX worldZ h00 h10 h01 h11 k)
                (slopeBlockCentroid worldX worldZ h00 h10 h01 h11))

instance (worldX worldZ h00 h10 h01 h11 : ℚ) (k : ℕ) :
    Decidable (slopeFaceIsOutward worldX worldZ h00 h10 h01 h11 k) := by
  unfold slopeFaceIsOutward; infer_instance

/-- The outward axis direction of each of the 12 faces of the slope
prism in source order: faces 0–1 bottom (−y), 2–3 top (+y), 4–5 the
side at `z` (−z), 6–7 the side at `x+1` (+x), 8–9 the side at `z+1`
(+z), 10–11 the side at `x` (−x). -/
def outwardAxis (k : ℕ) : Vec3 :=
  if k < 2 then ⟨0, -1, 0⟩
  else if k < 4 then ⟨0, 1, 0⟩
  else if k < 6 then ⟨0, 0, -1⟩
  else if k < 8 then ⟨1, 0, 0⟩
  else if k < 10 then ⟨0, 0, 1⟩
  else ⟨-1, 0, 0⟩

/-! ## Helper lemmas -/

theorem WorldLog.merge_zero (w : WorldLog) : w.merge WorldLog.zero = w := by
  simp [WorldLog.merge, WorldLog.zero]

theorem WorldLog.zero_merge (w : WorldLog) : WorldLog.zero.merge w = w := by
  simp [WorldLog.merge, WorldLog.zero]

theorem addToWorld_fold (fail : ℕ → Bool) :
    ∀ (l : List (ℕ × TrimeshData)) (bs : List Body) (lg : WorldLog),
      (l.foldl
        (fun (acc : List Body × WorldLog) it =>
          if fail it.1 = true then
            (acc.1, { acc.2 with errors := acc.2.errors + 1 })
          else
            (acc.1 ++ [mkBody it.2], { acc.2 with addCalls := acc.2.addCalls + 1 }))
        (bs, lg))
      = (bs ++ (l.filter (fun it => !fail it.1)).map (fun it => mkBody it.2),
         { lg with
            addCalls := lg.addCalls + (l.filter (fun it => !fail it.1)).length,
            errors := lg.errors + (l.filter (fun it => fail it.1)).length }) := by
  intro l
  induction l with
  | nil => intro bs lg; simp
  | cons hd tl ih =>
    intro bs lg
    by_cases h : fail hd.1 = true
    · simp only [List.foldl_cons, h, if_true, List.filter_cons, Bool.not_true, ih]
      simp [h]
      omega
    · simp only [List.foldl_cons, h, if_false, List.filter_cons, ih]
      simp only [Bool.not_eq_true] at h
      simp [h]
      omega

theorem addToWorld_spec (fail : ℕ → Bool) (c : PhysicsChunk)
    (h : c.isLoaded = false) :
    PhysicsChunk.addToWorld fail c =
      ({ c with
          physicsBodies := c.physicsBodies ++
            (c.trimeshes.enum.filter (fun it => !fail it.1)).map (fun it => mkBody it.2),
          isLoaded := true },
       { WorldLog.zero with
          addCalls := (c.trimeshes.enum.filter (fun it => !fail it.1)).length,
          errors := (c.trimeshes.enum.filter (fun it => fail it.1)).length }) := by
  unfold PhysicsChunk.addToWorld
  rw [if_neg (by simp [h])]
  rw [addToWorld_fold]
  simp [WorldLog.zero]

theorem addToWorld_fst_isLoaded (fail : ℕ → Bool) (c : PhysicsChunk) :
    (PhysicsChunk.addToWorld fail c).1.isLoaded = true := by
  unfold PhysicsChunk.addToWorld
  by_cases h : c.isLoaded = true
  · rw [if_pos h]; exact h
  · rw [if_neg h]

theorem addToWorld_fst_aabb (fail : ℕ → Bool) (c : PhysicsChunk) :
    (PhysicsChunk.addToWorld fail c).1.aabb = c.aabb := by
  unfold PhysicsChunk.addToWorld
  by_cases h : c.isLoaded = true
  · rw [if_pos h]
  · rw [if_neg h]

theorem removeFromWorld_fst_isLoaded (c : PhysicsChunk) :
    (PhysicsChunk.removeFromWorld c).1.isLoaded = false := by
  unfold PhysicsChunk.removeFromWorld
  by_cases h : c.isLoaded = false
  · rw [if_pos h]; exact h
  · rw [if_neg h]

theorem removeFromWorld_fst_aabb (c : PhysicsChunk) :
    (PhysicsChunk.removeFromWorld c).1.aabb = c.aabb := by
  unfold PhysicsChunk.removeFromWorld
  by_cases h : c.isLoaded = false
  · rw [if_pos h]
  · rw [if_neg h]

theorem chunkUpdate_fst_aabb (L U : ℚ) (p : Vec3) (fail : ℕ → Bool)
    (c : PhysicsChunk) : (chunkUpdate L U p fail c).1.aabb = c.aabb := by
  unfold chunkUpdate
  split
  · exact addToWorld_fst_aabb fail c
  · split
    · exact removeFromWorld_fst_aabb c
    · rfl

theorem chunkUpdate_fst_distSq (L U : ℚ) (p q : Vec3) (fail : ℕ → Bool)
    (c : PhysicsChunk) :
    (chunkUpdate L U p fail c).1.distSqToPoint q = c.distSqToPoint q := by
  unfold PhysicsChunk.distSqToPoint PhysicsChunk.getCenter
  rw [chunkUpdate_fst_aabb]

theorem chunkUpdate_loaded_of_close (L U : ℚ) (p : Vec3) (fail : ℕ → Bool)
    (c : PhysicsChunk) (hd : c.distSqToPoint p ≤ L ^ 2) (hsq : L ^ 2 ≤ U ^ 2) :
    (chunkUpdate L U p fail c).1.isLoaded = true := by
  unfold chunkUpdate
  by_cases hl : c.isLoaded = false
  · rw [if_pos ⟨hd, hl⟩]
    exact addToWorld_fst_isLoaded fail c
  · rw [if_neg (by simp [hl]), if_neg (by intro hcon; exact absurd (lt_of_le_of_lt (le_trans hd hsq) hcon.1) (lt_irrefl _))]
    simpa using hl

theorem chunkUpdate_unloaded_of_far (L U : ℚ) (p : Vec3) (fail : ℕ → Bool)
    (c : PhysicsChunk) (hd : U ^ 2 < c.distSqToPoint p) (hsq : L ^ 2 ≤ U ^ 2) :
    (chunkUpdate L U p fail c).1.isLoaded = false := by
  unfold chunkUpdate
  rw [if_neg (by intro hcon; exact absurd (lt_of_le_of_lt (le_trans hcon.1 hsq) hd) (lt_irrefl _))]
  by_cases hl : c.isLoaded = true
  · rw [if_pos ⟨hd, hl⟩]
    exact removeFromWorld_fst_isLoaded c
  · rw [if_neg (by simp [hl])]
    simpa using hl

theorem chunkUpdate_band (L U : ℚ) (p : Vec3) (fail : ℕ → Bool)
    (c : PhysicsChunk) (h1 : ¬ c.distSqToPoint p ≤ L ^ 2)
    (h2 : ¬ U ^ 2 < c.distSqToPoint p) :
    chunkUpdate L U p fail c = (c, WorldLog.zero) := by
  unfold chunkUpdate
  rw [if_neg (by intro hcon; exact h1 hcon.1), if_neg (by intro hcon; exact h2 hcon.1)]

theorem chunkUpdate_preserve_loaded (L U : ℚ) (p : Vec3) (fail : ℕ → Bool)
    (c : PhysicsChunk) (hd : c.distSqToPoint p ≤ U ^ 2) (hl : c.isLoaded = true) :
    (chunkUpdate L U p fail c).1.isLoaded = true := by
  unfold chunkUpdate
  rw [if_neg (by intro hcon; rw [hl] at hcon; exact absurd hcon.2 (by simp))]
  rw [if_neg (by intro hcon; exact absurd (lt_of_le_of_lt hd hcon.1) (lt_irrefl _))]
  exact hl

theorem chunkUpdate_noop_loaded (L U : ℚ) (p : Vec3) (fail : ℕ → Bool)
    (c : PhysicsChunk) (hl : c.isLoaded = true)
    (h2 : ¬ U ^ 2 < c.distSqToPoint p) :
    chunkUpdate L U p fail c = (c, WorldLog.zero) := by
  unfold chunkUpdate
  rw [if_neg (by intro hcon; rw [hl] at hcon; exact absurd hcon.2 (by simp)),
      if_neg (by intro hcon; exact h2 hcon.1)]

theorem chunkUpdate_noop_unloaded (L U : ℚ) (p : Vec3) (fail : ℕ → Bool)
    (c : PhysicsChunk) (hl : c.isLoaded = false)
    (h1 : ¬ c.distSqToPoint p ≤ L ^ 2) :
    chunkUpdate L U p fail c = (c, WorldLog.zero) := by
  unfold chunkUpdate
  rw [if_neg (by intro hcon; exact h1 hcon.1),
      if_neg (by intro hcon; rw [hl] at hcon; exact absurd hcon.2 (by simp))]

theorem chunkUpdate_idem (L U : ℚ) (p : Vec3) (f g : ℕ → Bool)
    (c : PhysicsChunk) (hsq : L ^ 2 ≤ U ^ 2) :
    chunkUpdate L U p g (chunkUpdate L U p f c).1 =
      ((chunkUpdate L U p f c).1, WorldLog.zero) := by
  by_cases hclose : c.distSqToPoint p ≤ L ^ 2
  · have hload : (chunkUpdate L U p f c).1.isLoaded = true := by
      by_cases hl : c.isLoaded = true
      · exact chunkUpdate_preserve_loaded L U p f c (le_trans hclose hsq) hl
      · exact chunkUpdate_loaded_of_close L U p f c hclose hsq
    refine chunkUpdate_noop_loaded L U p g _ hload ?_
    rw [chunkUpdate_fst_distSq]
    exact not_lt.mpr (le_trans hclose hsq)
  · by_cases hfar : U ^ 2 < c.distSqToPoint p
    · have hunload : (chunkUpdate L U p f c).1.isLoaded = false :=
        chunkUpdate_unloaded_of_far L U p f c hfar hsq
      refine chunkUpdate_noop_unloaded L U p g _ hunload ?_
      rw [chunkUpdate_fst_distSq]
      exact hclose
    · rw [chunkUpdate_band L U p f c hclose hfar]
      exact chunkUpdate_band L U p g c hclose hfar

theorem updateFold_eq (L U : ℚ) (p : Vec3) (fail : String → ℕ → Bool) :
    ∀ (l : List PhysicsChunk) (cs : List PhysicsChunk) (lg : WorldLog),
      (l.foldl
        (fun (acc : List PhysicsChunk × WorldLog) c =>
          let cw := chunkUpdate L U p (fail c.id) c
          (acc.1 ++ [cw.1], acc.2.merge cw.2))
        (cs, lg))
      = (cs ++ l.map (fun c => (chunkUpdate L U p (fail c.id) c).1),
         l.foldl (fun w c => w.merge (chunkUpdate L U p (fail c.id) c).2) lg) := by
  intro l
  induction l with
  | nil => intro cs lg; simp
  | cons hd tl ih =>
    intro cs lg
    simp only [List.foldl_cons, List.map_cons, ih]
    simp

theorem updateChunks_fst (fail : String → ℕ → Bool) (pm : PhysicsManager)
    (p : Vec3) (hw : pm.hasWorld = true) :
    (PhysicsManager.updateChunks fail pm p).1 =
      { pm with
          playerPosition := p,
          chunks := pm.chunks.map
            (fun c => (chunkUpdate pm.loadRadius pm.unloadRadius p (fail c.id) c).1) } := by
  unfold PhysicsManager.updateChunks
  rw [if_neg (by simp [hw])]
  rw [updateFold_eq]
  simp

theorem updateChunks_snd (fail : String → ℕ → Bool) (pm : PhysicsManager)
    (p : Vec3) (hw : pm.hasWorld = true) :
    (PhysicsManager.updateChunks fail pm p).2 =
      pm.chunks.foldl
        (fun w c => w.merge (chunkUpdate pm.loadRadius pm.unloadRadius p (fail c.id) c).2)
        WorldLog.zero := by
  unfold PhysicsManager.updateChunks
  rw [if_neg (by simp [hw])]
  rw [updateFold_eq]

theorem updateChunks_noWorld (fail : String → ℕ → Bool) (pm : PhysicsManager)
    (p : Vec3) (hw : pm.hasWorld = false) :
    PhysicsManager.updateChunks fail pm p =
      ({ pm with playerPosition := p }, { WorldLog.zero with warned := 1 }) := by
  unfold PhysicsManager.updateChunks
  rw [if_pos hw]

theorem updateChunks_loadRadius (fail : String → ℕ → Bool) (pm : PhysicsManager)
    (p : Vec3) : (PhysicsManager.updateChunks fail pm p).1.loadRadius = pm.loadRadius := by
  by_cases hw : pm.hasWorld = true
  · rw [updateChunks_fst fail pm p hw]
  · rw [updateChunks_noWorld fail pm p (by simpa using hw)]

theorem updateChunks_unloadRadius (fail : String → ℕ → Bool) (pm : PhysicsManager)
    (p : Vec3) : (PhysicsManager.updateChunks fail pm p).1.unloadRadius = pm.unloadRadius := by
  by_cases hw : pm.hasWorld = true
  · rw [updateChunks_fst fail pm p hw]
  · rw [updateChunks_noWorld fail pm p (by simpa using hw)]

theorem updateChunks_hasWorld (fail : String → ℕ → Bool) (pm : PhysicsManager)
    (p : Vec3) : (PhysicsManager.updateChunks fail pm p).1.hasWorld = pm.hasWorld := by
  by_cases hw : pm.hasWorld = true
  · rw [updateChunks_fst fail pm p hw]
  · rw [updateChunks_noWorld fail pm p (by simpa using hw)]

theorem updateChunks_get? (fail : String → ℕ → Bool) (pm : PhysicsManager)
    (p : Vec3) (i : ℕ) (c : PhysicsChunk) (hc : pm.chunks[i]? = some c) :
    (PhysicsManager.updateChunks fail pm p).1.chunks[i]? =
      some (if pm.hasWorld = true
            then (chunkUpdate pm.loadRadius pm.unloadRadius p (fail c.id) c).1
            else c) := by
  by_cases hw : pm.hasWorld = true
  · rw [updateChunks_fst fail pm p hw]
    simp [List.getElem?_map, hc, hw]
  · rw [updateChunks_noWorld fail pm p (by simpa using hw)]
    simp [hc, hw]

theorem updateSeq_preserve (steps : List (Vec3 × (String → ℕ → Bool))) :
    ∀ (pm : PhysicsManager) (i : ℕ) (c : PhysicsChunk),
      pm.chunks[i]? = some c →
      (∀ s ∈ steps, distSq c.aabb.getCenter s.1 ≤ pm.unloadRadius ^ 2) →
      ∃ c', (pm.updateSeq steps).chunks[i]? = some c' ∧
        c'.aabb = c.aabb ∧ (c.isLoaded = true → c'.isLoaded = true) := by
  induction steps with
  | nil =>
    intro pm i c hc _
    exact ⟨c, hc, rfl, fun h => h⟩
  | cons s rest ih =>
    intro pm i c hc hU
    have hstep := updateChunks_get? s.2 pm s.1 i c hc
    by_cases hw : pm.hasWorld = true
    · rw [if_pos hw] at hstep
      set c1 := (chunkUpdate pm.loadRadius pm.unloadRadius s.1 (s.2 c.id) c).1 with hc1
      have haabb : c1.aabb = c.aabb := chunkUpdate_fst_aabb _ _ _ _ _
      have hmono : c.isLoaded = true → c1.isLoaded = true := by
        intro hl
        exact chunkUpdate_preserve_loaded _ _ _ _ _ (hU s (List.mem_cons_self s rest)) hl
      have hrad : (PhysicsManager.updateChunks s.2 pm s.1).1.unloadRadius = pm.unloadRadius :=
        updateChunks_unloadRadius _ _ _
      obtain ⟨c', hc', haabb', hmono'⟩ :=
        ih (PhysicsManager.updateChunks s.2 pm s.1).1 i c1 hstep
          (by intro s' hs'
              rw [haabb, hrad]
              exact hU s' (List.mem_cons_of_mem s hs'))
      exact ⟨c', hc', by rw [haabb', haabb], fun h => hmono' (hmono h)⟩
    · rw [if_neg hw] at hstep
      have hrad : (PhysicsManager.updateChunks s.2 pm s.1).1.unloadRadius = pm.unloadRadius :=
        updateChunks_unloadRadius _ _ _
      obtain ⟨c', hc', haabb', hmono'⟩ :=
        ih (PhysicsManager.updateChunks s.2 pm s.1).1 i c hstep
          (by intro s' hs'
              rw [hrad]
              exact hU s' (List.mem_cons_of_mem s hs'))
      exact ⟨c', hc', haabb', hmono'⟩

theorem foldl_all_pres {α β : Type} (P : β → Prop) (f : List β → α → List β)
    (hf : ∀ acc a, (∀ c ∈ acc, P c) → ∀ c ∈ f acc a, P c) :
    ∀ (l : List α) (acc : List β), (∀ c ∈ acc, P c) → ∀ c ∈ l.foldl f acc, P c := by
  intro l
  induction l with
  | nil => intro acc h; exact h
  | cons a tl ih => intro acc h; exact ih _ (hf _ _ h)

/-! ## Concrete fixtures for the witnesses -/

/-- A concrete trimesh entry. -/
def trimW : TrimeshData :=
  { trimesh := { vertices := [0, 0, 0, 1, 0, 0, 0, 1, 0], indices := [0, 1, 2] },
    position := ⟨3, 0, 0⟩, quaternion := ⟨0, 0, 0, 1⟩, scale := ⟨1, 1, 1⟩,
    name := "t0" }

/-- A concrete unloaded chunk with AABB centre `(1,1,1)`. -/
def chunkW : PhysicsChunk :=
  { id := "chunk_0_0", aabb := ⟨⟨0, 0, 0⟩, ⟨2, 2, 2⟩⟩,
    trimeshes := [trimW], physicsBodies := [], isLoaded := false,
    meshChildren := [] }

/-- The same chunk, loaded. -/
def chunkWLoaded : PhysicsChunk := { chunkW with isLoaded := true }

/-- A concrete manager in the singleton's configuration
(`loadRadius 30`, `unloadRadius 50`, PhysicsManager.js lines 426–431). -/
def pmW : PhysicsManager :=
  { maxChildrenPerChunk := 8, loadRadius := 30, unloadRadius := 50,
    chunkSize := 15, chunks := [chunkW], hasWorld := true,
    playerPosition := ⟨0, 0, 0⟩ }

/-- The manager with its chunk loaded. -/
def pmWLoaded : PhysicsManager := { pmW with chunks := [chunkWLoaded] }

/-- The manager before `setWorld` was called. -/
def pmWNoWorld : PhysicsManager := { pmW with hasWorld := false }

/-- The failure oracle of a physics world that accepts every body. -/
def noFail : String → ℕ → Bool := fun _ _ => false

/-! ## Claim theorems: streaming controller -/

/-- Claim C1: For every observer position `p`, after a single
`updateChunks(p)` call — with the world reference set and under the
configuration precondition `0 ≤ loadRadius ≤ unloadRadius` the spec
(§4.4) imposes — every chunk whose Euclidean distance from `p` to its
AABB centre is at most `loadRadius` (squared comparison) is Loaded, and
every chunk whose distance exceeds `unloadRadius` is Unloaded. -/
theorem updateChunks_load_unload_radius (fail : String → ℕ → Bool)
    (pm : PhysicsManager) (p : Vec3)
    (hw : pm.hasWorld = true) (h0 : 0 ≤ pm.loadRadius)
    (hLU : pm.loadRadius ≤ pm.unloadRadius)
    (i : ℕ) (c : PhysicsChunk) (hc : pm.chunks[i]? = some c) :
    ∃ c', (PhysicsManager.updateChunks fail pm p).1.chunks[i]? = some c' ∧
      (c.distSqToPoint p ≤ pm.loadRadius ^ 2 → c'.isLoaded = true) ∧
      (pm.unloadRadius ^ 2 < c.distSqToPoint p → c'.isLoaded = false) := by
  have hsq : pm.loadRadius ^ 2 ≤ pm.unloadRadius ^ 2 := pow_le_pow_left₀ h0 hLU 2
  have hstep := updateChunks_get? fail pm p i c hc
  rw [if_pos hw] at hstep
  refine ⟨_, hstep, ?_, ?_⟩
  · intro hd; exact chunkUpdate_loaded_of_close _ _ _ _ _ hd hsq
  · intro hd; exact chunkUpdate_unloaded_of_far _ _ _ _ _ hd hsq

/-- Witness for C1 at the singleton configuration with the observer at
the chunk centre. -/
theorem updateChunks_load_unload_radius_witness :
    pmW.hasWorld = true ∧ (0 : ℚ) ≤ pmW.loadRadius ∧
    pmW.loadRadius ≤ pmW.unloadRadius ∧ pmW.chunks[0]? = some chunkW ∧
    ∃ c', (PhysicsManager.updateChunks noFail pmW ⟨1, 1, 1⟩).1.chunks[0]? = some c' ∧
      (chunkW.distSqToPoint ⟨1, 1, 1⟩ ≤ pmW.loadRadius ^ 2 → c'.isLoaded = true) ∧
      (pmW.unloadRadius ^ 2 < chunkW.distSqToPoint ⟨1, 1, 1⟩ → c'.isLoaded = false) :=
  ⟨rfl, by norm_num [pmW], by norm_num [pmW], rfl,
   updateChunks_load_unload_radius noFail pmW ⟨1, 1, 1⟩ rfl (by norm_num [pmW])
     (by norm_num [pmW]) 0 chunkW rfl⟩

/-- Claim C2: Hysteresis: along any sequence of `update(p)` frames during
which a chunk's distance to the observer never exceeds `unloadRadius`,
that chunk never transitions from Loaded to Unloaded (loadedness is
preserved after every prefix of the sequence); and a single update with the chunk's distance strictly
between `loadRadius` and `unloadRadius` leaves the chunk entirely
unchanged (the hysteresis band), so oscillation below `unloadRadius`
cannot toggle the state. -/
theorem streaming_hysteresis (pm : PhysicsManager)
    (steps : List (Vec3 × (String → ℕ → Bool))) (i : ℕ) (c : PhysicsChunk)
    (hc : pm.chunks[i]? = some c)
    (hU : ∀ s ∈ steps, c.distSqToPoint s.1 ≤ pm.unloadRadius ^ 2) :
    (∀ n : ℕ, ∃ c', (pm.updateSeq (steps.take n)).chunks[i]? = some c' ∧
       (c.isLoaded = true → c'.isLoaded = true)) ∧
    (∀ (p : Vec3) (f : String → ℕ → Bool) (j : ℕ) (d : PhysicsChunk),
       pm.chunks[j]? = some d →
       pm.loadRadius ^ 2 < d.distSqToPoint p →
       d.distSqToPoint p < pm.unloadRadius ^ 2 →
       (PhysicsManager.updateChunks f pm p).1.chunks[j]? = some d) := by
  constructor
  · intro n
    obtain ⟨c', h1, _, h3⟩ := updateSeq_preserve (steps.take n) pm i c hc
      (by intro s hs
          have := hU s (List.take_subset n steps hs)
          simpa [PhysicsChunk.distSqToPoint, PhysicsChunk.getCenter] using this)
    exact ⟨c', h1, h3⟩
  · intro p f j d hd hlo hhi
    have hstep := updateChunks_get? f pm p j d hd
    by_cases hw : pm.hasWorld = true
    · rw [if_pos hw, chunkUpdate_band _ _ _ _ _ (not_le.mpr hlo)
          (not_lt.mpr (le_of_lt hhi))] at hstep
      exact hstep
    · rw [if_neg hw] at hstep
      exact hstep

/-- Witness for C2: the loaded chunk stays loaded over a frame at the
chunk centre, and a frame with the observer in the hysteresis band
(distance 40, between 30 and 50) leaves the chunk untouched. -/
theorem streaming_hysteresis_witness :
    pmWLoaded.chunks[0]? = some chunkWLoaded ∧
    (∀ s ∈ [((⟨1, 1, 1⟩ : Vec3), noFail)],
       chunkWLoaded.distSqToPoint s.1 ≤ pmWLoaded.unloadRadius ^ 2) ∧
    (∀ n : ℕ, ∃ c',
       (pmWLoaded.updateSeq ([(⟨1, 1, 1⟩, noFail)].take n)).chunks[0]? = some c' ∧
       (chunkWLoaded.isLoaded = true → c'.isLoaded = true)) ∧
    (PhysicsManager.updateChunks noFail pmWLoaded ⟨41, 1, 1⟩).1.chunks[0]? =
      some chunkWLoaded := by
  have hU : ∀ s ∈ [((⟨1, 1, 1⟩ : Vec3), noFail)],
      chunkWLoaded.distSqToPoint s.1 ≤ pmWLoaded.unloadRadius ^ 2 := by
    intro s hs
    rcases List.mem_singleton.mp hs with rfl
    norm_num [chunkWLoaded, chunkW, pmWLoaded, pmW, PhysicsChunk.distSqToPoint,
      PhysicsChunk.getCenter, Box3.getCenter, distSq]
  have h := streaming_hysteresis pmWLoaded [(⟨1, 1, 1⟩, noFail)] 0 chunkWLoaded rfl hU
  refine ⟨rfl, hU, h.1, h.2 ⟨41, 1, 1⟩ noFail 0 chunkWLoaded rfl ?_ ?_⟩
  · norm_num [chunkWLoaded, chunkW, pmWLoaded, pmW, PhysicsChunk.distSqToPoint,
      PhysicsChunk.getCenter, Box3.getCenter, distSq]
  · norm_num [chunkWLoaded, chunkW, pmWLoaded, pmW, PhysicsChunk.distSqToPoint,
      PhysicsChunk.getCenter, Box3.getCenter, distSq]

/-- Claim C3: Idempotence of external physics-world effects: for every
starting state and observer position `p` (under the configuration
precondition `0 ≤ loadRadius ≤ unloadRadius`), the second of two
consecutive `updateChunks(p)` calls performs zero `world.addBody` and
zero `world.removeBody` calls. -/
theorem updateChunks_idempotent (f g : String → ℕ → Bool)
    (pm : PhysicsManager) (p : Vec3)
    (h0 : 0 ≤ pm.loadRadius) (hLU : pm.loadRadius ≤ pm.unloadRadius) :
    (PhysicsManager.updateChunks g (PhysicsManager.updateChunks f pm p).1 p).2.addCalls = 0 ∧
    (PhysicsManager.updateChunks g (PhysicsManager.updateChunks f pm p).1 p).2.removeCalls = 0 := by
  have hsq : pm.loadRadius ^ 2 ≤ pm.unloadRadius ^ 2 := pow_le_pow_left₀ h0 hLU 2
  by_cases hw : pm.hasWorld = true
  · have hw1 : (PhysicsManager.updateChunks f pm p).1.hasWorld = true := by
      rw [updateChunks_hasWorld]; exact hw
    have hL1 := updateChunks_loadRadius f pm p
    have hU1 := updateChunks_unloadRadius f pm p
    have hchunks : (PhysicsManager.updateChunks f pm p).1.chunks = pm.chunks.map
        (fun c => (chunkUpdate pm.loadRadius pm.unloadRadius p (f c.id) c).1) := by
      rw [updateChunks_fst f pm p hw]
    have hfold : ∀ (l : List PhysicsChunk) (w : WorldLog),
        (∀ c ∈ l, (chunkUpdate pm.loadRadius pm.unloadRadius p (g c.id) c).2 = WorldLog.zero) →
        (l.foldl (fun w c =>
          w.merge (chunkUpdate pm.loadRadius pm.unloadRadius p (g c.id) c).2) w) = w := by
      intro l
      induction l with
      | nil => intro w _; rfl
      | cons hd tl ih =>
        intro w hz
        simp only [List.foldl_cons]
        rw [hz hd (List.mem_cons_self hd tl), WorldLog.merge_zero]
        exact ih w (fun c hcm => hz c (List.mem_cons_of_mem hd hcm))
    have hzero : ∀ c ∈ (PhysicsManager.updateChunks f pm p).1.chunks,
        (chunkUpdate pm.loadRadius pm.unloadRadius p (g c.id) c).2 = WorldLog.zero := by
      rw [hchunks]
      intro c hcm
      obtain ⟨c0, _, rfl⟩ := List.mem_map.mp hcm
      exact congrArg Prod.snd
        (chunkUpdate_idem pm.loadRadius pm.unloadRadius p (f c0.id)
          (g ((chunkUpdate pm.loadRadius pm.unloadRadius p (f c0.id) c0).1.id)) c0 hsq)
    rw [updateChunks_snd g _ p hw1, hL1, hU1, hfold _ WorldLog.zero hzero]
    exact ⟨rfl, rfl⟩
  · have hw' : pm.hasWorld = false := by simpa using hw
    have h1 := updateChunks_noWorld f pm p hw'
    have hw1 : (PhysicsManager.updateChunks f pm p).1.hasWorld = false := by
      rw [h1]; exact hw'
    rw [updateChunks_noWorld g _ p hw1]
    exact ⟨rfl, rfl⟩

/-- Witness for C3 at the singleton configuration. -/
theorem updateChunks_idempotent_witness :
    (0 : ℚ) ≤ pmW.loadRadius ∧ pmW.loadRadius ≤ pmW.unloadRadius ∧
    (PhysicsManager.updateChunks noFail
      (PhysicsManager.updateChunks noFail pmW ⟨1, 1, 1⟩).1 ⟨1, 1, 1⟩).2.addCalls = 0 ∧
    (PhysicsManager.updateChunks noFail
      (PhysicsManager.updateChunks noFail pmW ⟨1, 1, 1⟩).1 ⟨1, 1, 1⟩).2.removeCalls = 0 :=
  ⟨by norm_num [pmW], by norm_num [pmW],
   (updateChunks_idempotent noFail noFail pmW ⟨1, 1, 1⟩
     (by norm_num [pmW]) (by norm_num [pmW])).1,
   (updateChunks_idempotent noFail noFail pmW ⟨1, 1, 1⟩
     (by norm_num [pmW]) (by norm_num [pmW])).2⟩

/-- Claim C10: `updateChunks(p)` before `setWorld`: the call only stores
the player position and emits one warning — the chunk list (hence every
chunk's loaded state and body list) and all other manager fields are
unchanged, and no body is added or removed. -/
theorem updateChunks_without_world (fail : String → ℕ → Bool)
    (pm : PhysicsManager) (p : Vec3) (hw : pm.hasWorld = false) :
    PhysicsManager.updateChunks fail pm p =
      ({ pm with playerPosition := p }, { WorldLog.zero with warned := 1 }) := by
  unfold PhysicsManager.updateChunks
  rw [if_pos hw]

/-- Witness for C10. -/
theorem updateChunks_without_world_witness :
    pmWNoWorld.hasWorld = false ∧
    PhysicsManager.updateChunks noFail pmWNoWorld ⟨2, 3, 4⟩ =
      ({ pmWNoWorld with playerPosition := ⟨2, 3, 4⟩ },
       { WorldLog.zero with warned := 1 }) :=
  ⟨rfl, updateChunks_without_world noFail pmWNoWorld ⟨2, 3, 4⟩ rfl⟩

/-! ## Claim theorems: chunk store construction and trimesh extraction -/

/-- A mesh child whose geometry has no position attribute: it intersects
the grid, so it is assigned to a chunk, but `generateTrimeshes` skips it
and the chunk keeps zero shapes. -/
def badChildC6 : MeshChild :=
  { isMesh := true, hasGeometry := true, hasPositionAttr := false,
    localPositions := [], indexBuf := none,
    worldPosition := ⟨0, 0, 0⟩, worldQuaternion := ⟨0, 0, 0, 1⟩,
    worldScale := ⟨1, 1, 1⟩, bbox := ⟨⟨0, 0, 0⟩, ⟨1, 1, 1⟩⟩, name := "bad" }

/-- Evaluation of the store built from the single bad mesh child: one
chunk, holding the mesh but zero trimeshes. -/
theorem createSpatialChunks_badChild_eq :
    PhysicsManager.createSpatialChunks 8 20 [badChildC6] ⟨⟨0, 0, 0⟩, ⟨10, 5, 10⟩⟩ =
      [{ id := "chunk_0_0", aabb := ⟨⟨0, 0, 0⟩, ⟨20, 5, 20⟩⟩,
         trimeshes := [], physicsBodies := [], isLoaded := false,
         meshChildren := [badChildC6] }] := by
  have hceil : (⌈((10:ℚ) - 0) / 20⌉).toNat = 1 := by
    have h1 : (⌈((10:ℚ) - 0) / 20⌉ : ℤ) = 1 := by
      rw [Int.ceil_eq_iff]
      norm_num
    rw [h1]
    rfl
  unfold PhysicsManager.createSpatialChunks
  simp only [Box3.getSize]
  rw [hceil, show List.range 1 = [0] from rfl]
  simp only [List.foldl_cons, List.foldl_nil]
  norm_num [Box3.intersects, badChildC6, PhysicsChunk.generateTrimeshesOf,
    List.enum, List.enumFrom]
  rfl

/-- Counterexample to C6 as stated: building the store from one mesh
child whose geometry lacks a position attribute creates a chunk that is
present in the store but has an empty `trimeshes` list — not every
stored chunk has at least one collision shape. -/
theorem createSpatialChunks_shape_counterexample :
    ∃ c ∈ PhysicsManager.createSpatialChunks 8 20 [badChildC6]
        ⟨⟨0, 0, 0⟩, ⟨10, 5, 10⟩⟩,
      c.trimeshes = [] ∧ c.meshChildren = [badChildC6] := by
  rw [createSpatialChunks_badChild_eq]
  exact ⟨_, List.mem_singleton_self _, rfl, rfl⟩

/-- Claim C6, amended: After `createSpatialChunks`, every chunk present
in the store has at least one assigned mesh child (chunks with zero
assigned meshes are not created) and its `isLoaded` flag is `false`;
a stored chunk may however have zero trimesh shapes when all its
assigned meshes lack usable geometry. -/
theorem createSpatialChunks_invariant (cap : ℕ) (csize : ℚ)
    (children : List MeshChild) (bbox : Box3) :
    ∀ c ∈ PhysicsManager.createSpatialChunks cap csize children bbox,
      c.meshChildren ≠ [] ∧ c.isLoaded = false := by
  unfold PhysicsManager.createSpatialChunks
  refine foldl_all_pres _ _ ?_ _ _ (by intro c hc; cases hc)
  intro accOuter x hacc
  refine foldl_all_pres _ _ ?_ _ _ hacc
  intro acc z hin
  intro c hc
  by_cases hlen :
      (children.foldl
        (fun (cs : List MeshChild) child =>
          if cs.length ≥ cap then cs
          else if Box3.intersects
              ⟨⟨bbox.min.x + x * csize, bbox.min.y, bbox.min.z + z * csize⟩,
               ⟨bbox.min.x + (x + 1) * csize, bbox.min.y + bbox.getSize.y,
                bbox.min.z + (z + 1) * csize⟩⟩ child.bbox then cs ++ [child]
          else cs)
        []).length > 0
  · rw [if_pos hlen] at hc
    rcases List.mem_append.mp hc with hmem | hmem
    · exact hin c hmem
    · rcases List.mem_singleton.mp hmem with rfl
      exact ⟨List.length_pos.mp hlen, rfl⟩
  · rw [if_neg hlen] at hc
    exact hin c hc

/-- Witness for the amended C6 on a concrete build: the store contains
one chunk, it has an assigned mesh, and it starts unloaded. -/
theorem createSpatialChunks_invariant_witness :
    ∃ c ∈ PhysicsManager.createSpatialChunks 8 20 [badChildC6]
        ⟨⟨0, 0, 0⟩, ⟨10, 5, 10⟩⟩,
      c.meshChildren ≠ [] ∧ c.isLoaded = false := by
  have hall := createSpatialChunks_invariant 8 20 [badChildC6]
    ⟨⟨0, 0, 0⟩, ⟨10, 5, 10⟩⟩
  have hmem : ∃ c, c ∈ PhysicsManager.createSpatialChunks 8 20 [badChildC6]
      ⟨⟨0, 0, 0⟩, ⟨10, 5, 10⟩⟩ := by
    rw [createSpatialChunks_badChild_eq]
    exact ⟨_, List.mem_singleton_self _⟩
  obtain ⟨c, hc⟩ := hmem
  exact ⟨c, hc, hall c hc⟩

/-- Claim C7: A load transition completes under partial failure: for an
unloaded chunk and any pattern of per-shape `world.addBody` failures,
the chunk ends up marked Loaded, exactly the non-failing shapes' bodies
are appended (in order), one add call happens per surviving shape, and
one error is logged per failing shape. -/
theorem addToWorld_partial_failure (fail : ℕ → Bool) (c : PhysicsChunk)
    (h : c.isLoaded = false) :
    (PhysicsChunk.addToWorld fail c).1.isLoaded = true ∧
    (PhysicsChunk.addToWorld fail c).1.physicsBodies =
      c.physicsBodies ++
        (c.trimeshes.enum.filter (fun it => !fail it.1)).map (fun it => mkBody it.2) ∧
    (PhysicsChunk.addToWorld fail c).2.addCalls =
      (c.trimeshes.enum.filter (fun it => !fail it.1)).length ∧
    (PhysicsChunk.addToWorld fail c).2.errors =
      (c.trimeshes.enum.filter (fun it => fail it.1)).length := by
  rw [addToWorld_spec fail c h]
  exact ⟨rfl, rfl, rfl, rfl⟩

/-- A second trimesh entry, so the partial-failure witness has one
failing and one surviving shape. -/
def trimW2 : TrimeshData :=
  { trimesh := { vertices := [0, 0, 0, 0, 0, 1, 0, 1, 0], indices := [0, 1, 2] },
    position := ⟨5, 0, 0⟩, quaternion := ⟨0, 0, 0, 1⟩, scale := ⟨1, 1, 1⟩,
    name := "t1" }

/-- A chunk with two shapes for the C7 witness. -/
def chunkW2 : PhysicsChunk :=
  { id := "chunk_1_0", aabb := ⟨⟨2, 0, 0⟩, ⟨4, 2, 2⟩⟩,
    trimeshes := [trimW, trimW2], physicsBodies := [], isLoaded := false,
    meshChildren := [] }

/-- Witness for C7: shape 0's add fails, shape 1 survives; the chunk is
loaded anyway with exactly the surviving body, one add and one error. -/
theorem addToWorld_partial_failure_witness :
    chunkW2.isLoaded = false ∧
    (PhysicsChunk.addToWorld (fun i => i == 0) chunkW2).1.isLoaded = true ∧
    (PhysicsChunk.addToWorld (fun i => i == 0) chunkW2).1.physicsBodies =
      chunkW2.physicsBodies ++
        (chunkW2.trimeshes.enum.filter (fun it => !(it.1 == 0))).map
          (fun it => mkBody it.2) ∧
    (PhysicsChunk.addToWorld (fun i => i == 0) chunkW2).2.addCalls =
      (chunkW2.trimeshes.enum.filter (fun it => !(it.1 == 0))).length ∧
    (PhysicsChunk.addToWorld (fun i => i == 0) chunkW2).2.errors =
      (chunkW2.trimeshes.enum.filter (fun it => it.1 == 0)).length :=
  ⟨rfl,
   (addToWorld_partial_failure (fun i => i == 0) chunkW2 rfl).1,
   (addToWorld_partial_failure (fun i => i == 0) chunkW2 rfl).2.1,
   (addToWorld_partial_failure (fun i => i == 0) chunkW2 rfl).2.2.1,
   (addToWorld_partial_failure (fun i => i == 0) chunkW2 rfl).2.2.2⟩

/-- Claim C8: Trimesh extraction: for every mesh child the extractor
processes (a mesh with geometry carrying a position attribute), the
stored shape's vertices are the mesh's untransformed local positions,
the world transform snapshot (position, orientation, scale) is stored as
the shape's placement, missing index buffers turn every three
consecutive vertices into one triangle, and the body created at load
time is placed at the stored world position and orientation with the
untransformed shape. -/
theorem trimesh_extraction_spec (child : MeshChild)
    (h1 : child.isMesh = true) (h2 : child.hasGeometry = true)
    (h3 : child.hasPositionAttr = true) :
    ∃ t, PhysicsChunk.generateTrimeshesOf [child] = [t] ∧
      t.trimesh.vertices = flattenPositions child.localPositions ∧
      t.position = child.worldPosition ∧
      t.quaternion = child.worldQuaternion ∧
      t.scale = child.worldScale ∧
      (child.indexBuf = none →
        t.trimesh.indices = List.range child.localPositions.length) ∧
      (∀ ib, child.indexBuf = some ib → t.trimesh.indices = ib) ∧
      (∀ c : PhysicsChunk, c.isLoaded = false → c.trimeshes = [t] →
        (PhysicsChunk.addToWorld (fun _ => false) c).1.physicsBodies =
          c.physicsBodies ++
            [{ shape := t.trimesh, position := t.position,
               quaternion := t.quaternion }]) := by
  refine ⟨{ trimesh :=
              { vertices := flattenPositions child.localPositions,
                indices :=
                  match child.indexBuf with
                  | some ib => ib
                  | none => List.range child.localPositions.length },
            position := child.worldPosition,
            quaternion := child.worldQuaternion,
            scale := child.worldScale,
            name := if child.name = "" then "trimesh_" ++ toString 0
                    else child.name },
         ?_, rfl, rfl, rfl, rfl, ?_, ?_, ?_⟩
  · unfold PhysicsChunk.generateTrimeshesOf
    simp [List.enum, h1, h2, h3]
  · intro hnone
    simp only [hnone]
  · intro ib hib
    simp only [hib]
  · intro c hl ht
    rw [addToWorld_spec _ c hl, ht]
    rfl

/-- A concrete non-indexed mesh child for the C8 witness. -/
def childW : MeshChild :=
  { isMesh := true, hasGeometry := true, hasPositionAttr := true,
    localPositions := [⟨0, 0, 0⟩, ⟨1, 0, 0⟩, ⟨0, 0, 1⟩],
    indexBuf := none,
    worldPosition := ⟨7, 1, 2⟩, worldQuaternion := ⟨0, 1, 0, 0⟩,
    worldScale := ⟨2, 2, 2⟩, bbox := ⟨⟨7, 1, 2⟩, ⟨9, 1, 4⟩⟩, name := "m0" }

/-- Witness for C8 on the concrete non-indexed child. -/
theorem trimesh_extraction_spec_witness :
    childW.isMesh = true ∧ childW.hasGeometry = true ∧
    childW.hasPositionAttr = true ∧
    ∃ t, PhysicsChunk.generateTrimeshesOf [childW] = [t] ∧
      t.trimesh.vertices = flattenPositions childW.localPositions ∧
      t.position = childW.worldPosition ∧
      t.quaternion = childW.worldQuaternion ∧
      t.scale = childW.worldScale ∧
      (childW.indexBuf = none →
        t.trimesh.indices = List.range childW.localPositions.length) ∧
      (∀ ib, childW.indexBuf = some ib → t.trimesh.indices = ib) ∧
      (∀ c : PhysicsChunk, c.isLoaded = false → c.trimeshes = [t] →
        (PhysicsChunk.addToWorld (fun _ => false) c).1.physicsBodies =
          c.physicsBodies ++
            [{ shape := t.trimesh, position := t.position,
               quaternion := t.quaternion }]) :=
  ⟨rfl, rfl, rfl, trimesh_extraction_spec childW rfl rfl rfl⟩

/-! ## Claim theorems: terrain generation -/

/-- Claim C4: Wall/slope classification: for every cell whose maximum
corner height is positive, if `heightDiff = max(corners) − min(corners)`
exceeds the wall threshold 4 the generator emits a wall — a single
`1 × maxHeight × 1` box mesh positioned at the cell centre, spanning
heights `0` to `maxHeight` — and otherwise it emits a slope.  The
witness instantiates the concrete scenario with corners `(0,0,0,5)`. -/
theorem generateBlock_classification (x z h00 h10 h01 h11 : ℚ)
    (hpos : 0 < max4 h00 h10 h01 h11) :
    (4 < max4 h00 h10 h01 h11 - min4 h00 h10 h01 h11 →
       generateBlock x z h00 h10 h01 h11 =
         some (BlockMesh.wall (generateWallBlock x z h00 h10 h01 h11)) ∧
       (generateWallBlock x z h00 h10 h01 h11).size =
         ⟨1, max4 h00 h10 h01 h11, 1⟩ ∧
       (generateWallBlock x z h00 h10 h01 h11).position =
         ⟨x + 1/2, max4 h00 h10 h01 h11 / 2, z + 1/2⟩ ∧
       (generateWallBlock x z h00 h10 h01 h11).position.y -
         (generateWallBlock x z h00 h10 h01 h11).size.y / 2 = 0 ∧
       (generateWallBlock x z h00 h10 h01 h11).position.y +
         (generateWallBlock x z h00 h10 h01 h11).size.y / 2 =
           max4 h00 h10 h01 h11) ∧
    (max4 h00 h10 h01 h11 - min4 h00 h10 h01 h11 ≤ 4 →
       ∃ s, generateBlock x z h00 h10 h01 h11 = some (BlockMesh.slope s)) := by
  constructor
  · intro hdiff
    refine ⟨?_, rfl, rfl, by simp [generateWallBlock], by simp [generateWallBlock]; try ring⟩
    simp only [generateBlock]
    rw [if_neg (not_le.mpr hpos), if_pos hdiff]
  · intro hdiff
    simp only [generateBlock, generateSlopeBlock]
    rw [if_neg (not_le.mpr hpos), if_neg (not_lt.mpr hdiff), if_neg (not_le.mpr hpos)]
    exact ⟨_, rfl⟩

/-- Witness for C4: the spec's concrete scenario — corners `(0,0,0,5)`
give `heightDiff = 5 > 4`, so the cell is a wall of height 5. -/
theorem generateBlock_classification_witness :
    (0 : ℚ) < max4 0 0 0 5 ∧
    (4 : ℚ) < max4 0 0 0 5 - min4 0 0 0 5 ∧
    generateBlock 0 0 0 0 0 5 =
      some (BlockMesh.wall (generateWallBlock 0 0 0 0 0 5)) ∧
    (generateWallBlock 0 0 0 0 0 5).size.y = 5 := by
  have h1 : (0 : ℚ) < max4 0 0 0 5 := by norm_num [max4, max_def]
  have h2 : (4 : ℚ) < max4 0 0 0 5 - min4 0 0 0 5 := by
    norm_num [max4, max_def, min4, min_def]
  have h := (generateBlock_classification 0 0 0 0 0 5 h1).1 h2
  refine ⟨h1, h2, h.1, ?_⟩
  rw [show (generateWallBlock 0 0 0 0 0 5).size.y = max4 0 0 0 5 from by
        rw [h.2.1]]
  norm_num [max4, max_def]

/-- Counterexample to C5 as stated: for the slope cell at `(0,0)` with
all four corners at height 2, the first bottom face (`[0,2,1]`) has
cross-product normal `(0,1,0)`, which points from the face towards the
solid's interior — the winding is not outward-facing. -/
theorem slope_winding_not_outward : ¬ slopeFaceIsOutward 0 0 2 2 2 2 0 := by
  norm_num [slopeFaceIsOutward, slopeFaceNormal, slopeFaceCentroid,
    slopeBlockCentroid, slopeFaces, slopeVertices, triNormal, vertexAt,
    Vec3.cross, Vec3.sub, Vec3.dot]

/-- Claim C5, amended: The slope mesh for a cell `(x,z)` with corner
heights `h00,h10,h11,h01` (all nonnegative, maximum positive) is the
closed 8-vertex volume with exactly the claimed base and top vertices,
triangulated into exactly 12 triangles (2 bottom, 2 top, 8 side), with
per-face normals computed from the cross product of two edge vectors
(pushed once per vertex of the face, not interpolated) — but the winding
is **inward**-facing, not outward: every face normal has nonpositive dot
product with that face's outward axis, strictly negative for the bottom
and top faces. -/
theorem generateSlopeBlock_mesh_spec (x z h00 h10 h01 h11 : ℚ)
    (hpos : 0 < max4 h00 h10 h01 h11)
    (hn0 : 0 ≤ h00) (hn1 : 0 ≤ h10) (hn2 : 0 ≤ h01) (hn3 : 0 ≤ h11) :
    ∃ s, generateSlopeBlock x z h00 h10 h01 h11 = some s ∧
      s.vertices = [x, 0, z,  x + 1, 0, z,  x + 1, 0, z + 1,  x, 0, z + 1,
                    x, h00, z,  x + 1, h10, z,  x + 1, h11, z + 1,
                    x, h01, z + 1] ∧
      s.indices = [0, 2, 1,  0, 3, 2,  4, 5, 6,  4, 6, 7,  0, 1, 5,
                   0, 5, 4,  1, 2, 6,  1, 6, 5,  2, 3, 7,  2, 7, 6,
                   3, 0, 4,  3, 4, 7] ∧
      s.indices.length = 36 ∧
      slopeFaces.length = 12 ∧
      s.normals = slopeFaces.flatMap (fun f =>
        let n := triNormal s.vertices f
        [n.x, n.y, n.z, n.x, n.y, n.z, n.x, n.y, n.z]) ∧
      (∀ k, k < 12 →
        Vec3.dot (slopeFaceNormal x z h00 h10 h01 h11 k) (outwardAxis k) ≤ 0) ∧
      (∀ k, k < 4 →
        Vec3.dot (slopeFaceNormal x z h00 h10 h01 h11 k) (outwardAxis k) < 0) := by
  refine ⟨{ vertices := slopeVertices x z h00 h10 h01 h11,
            indices := slopeFaces.flatMap (fun f => [f.a, f.b, f.c]),
            normals := slopeNormals (slopeVertices x z h00 h10 h01 h11),
            uvs := slopeUVs,
            name := "slope_" ++ toString x ++ "_" ++ toString z },
         ?_, rfl, rfl, rfl, by decide, rfl, ?_, ?_⟩
  · simp only [generateSlopeBlock]
    rw [if_neg (not_le.mpr hpos)]
  · intro k hk
    interval_cases k <;>
      (norm_num [slopeFaceNormal, slopeFaces, slopeVertices, triNormal,
        vertexAt, outwardAxis, Vec3.cross, Vec3.sub, Vec3.dot] <;> try linarith)
  · intro k hk
    interval_cases k <;>
      norm_num [slopeFaceNormal, slopeFaces, slopeVertices, triNormal,
        vertexAt, outwardAxis, Vec3.cross, Vec3.sub, Vec3.dot]

/-- Witness for the amended C5 at the flat cell `(0,0)` with all four
corners at height 1. -/
theorem generateSlopeBlock_mesh_spec_witness :
    (0 : ℚ) < max4 1 1 1 1 ∧
    ∃ s, generateSlopeBlock 0 0 1 1 1 1 = some s ∧
      s.vertices = [0, 0, 0,  0 + 1, 0, 0,  0 + 1, 0, 0 + 1,  0, 0, 0 + 1,
                    0, 1, 0,  0 + 1, 1, 0,  0 + 1, 1, 0 + 1,
                    0, 1, 0 + 1] ∧
      s.indices = [0, 2, 1,  0, 3, 2,  4, 5, 6,  4, 6, 7,  0, 1, 5,
                   0, 5, 4,  1, 2, 6,  1, 6, 5,  2, 3, 7,  2, 7, 6,
                   3, 0, 4,  3, 4, 7] ∧
      s.indices.length = 36 ∧
      slopeFaces.length = 12 ∧
      s.normals = slopeFaces.flatMap (fun f =>
        let n := triNormal s.vertices f
        [n.x, n.y, n.z, n.x, n.y, n.z, n.x, n.y, n.z]) ∧
      (∀ k, k < 12 →
        Vec3.dot (slopeFaceNormal 0 0 1 1 1 1 k) (outwardAxis k) ≤ 0) ∧
      (∀ k, k < 4 →
        Vec3.dot (slopeFaceNormal 0 0 1 1 1 1 k) (outwardAxis k) < 0) := by
  have h1 : (0 : ℚ) < max4 1 1 1 1 := by norm_num [max4, max_def]
  exact ⟨h1, generateSlopeBlock_mesh_spec 0 0 1 1 1 1 h1
    (by norm_num) (by norm_num) (by norm_num) (by norm_num)⟩

/-- A height grid whose first token is non-numeric. -/
def badGridASCII : String := "ab 3\n4 5"

/-- Counterexample to C9 as stated: the malformed token `"ab"` parses to
the default `0` in the stored grid, but nothing is logged —
`loadFromASCII` returns an empty console-message list (its source, lines
61–107, contains no console call), refuting the claim's "and the
condition is logged". -/
theorem loadFromASCII_silent :
    parseIntJS "ab".toList = none ∧
    ((LevelChunk.loadFromASCII badGridASCII "" "" "" "").1.heightBase.getD 0 []).getD 0 1 = 0 ∧
    (LevelChunk.loadFromASCII badGridASCII "" "" "" "").2 = [] :=
  ⟨by decide, by decide, rfl⟩

/-- Claim C9, amended: Malformed-height tolerance: (i) a grid entry whose
token is missing or non-numeric is stored as the default `0`; (ii) this
is silent — `loadFromASCII` emits no console message (the "and is
logged" half of the original claim is what fails); (iii) a height lookup
at out-of-grid coordinates returns `0`; (iv) parsing never aborts and
always yields a full 16×16 grid, so generation proceeds past any single
bad cell. -/
theorem heightParsing_defaults :
    (∀ (s : String) (y x : ℕ), y < 16 → x < 16 →
       parseIntJS ((((splitLines s).map splitWS).getD y []).getD x []) = none →
       ((parseGrid 16 s).getD y []).getD x 1 = 0) ∧
    (∀ hb ho st tt ob : String,
       (LevelChunk.loadFromASCII hb ho st tt ob).2 = []) ∧
    (∀ (t : ChunkTables) (x y : ℤ), x < 0 ∨ 16 ≤ x ∨ y < 0 ∨ 16 ≤ y →
       LevelChunk.getBlockHeight t x y = 0) ∧
    (∀ s : String, (parseGrid 16 s).length = 16 ∧
       ∀ row ∈ parseGrid 16 s, row.length = 16) := by
  refine ⟨?_, ?_, ?_, ?_⟩
  · intro s y x hy hx hnone
    have houter : (parseGrid 16 s).getD y [] =
        (List.range 16).map (fun xx =>
          if xx < (((splitLines s).map splitWS).getD y []).length
          then parseOr0 ((((splitLines s).map splitWS).getD y []).getD xx [])
          else 0) := by
      unfold parseGrid
      rw [List.getD_eq_getElem?_getD, List.getElem?_map, List.getElem?_range hy]
      rfl
    rw [houter, List.getD_eq_getElem?_getD, List.getElem?_map,
        List.getElem?_range hx]
    show (if x < (((splitLines s).map splitWS).getD y []).length
          then parseOr0 ((((splitLines s).map splitWS).getD y []).getD x [])
          else 0) = 0
    by_cases hlt : x < (((splitLines s).map splitWS).getD y []).length
    · rw [if_pos hlt]
      unfold parseOr0
      rw [hnone]
      rfl
    · rw [if_neg hlt]
  · intro hb ho st tt ob
    rfl
  · intro t x y h
    unfold LevelChunk.getBlockHeight
    rw [if_pos h]
  · intro s
    constructor
    · unfold parseGrid
      simp
    · intro row hrow
      unfold parseGrid at hrow
      obtain ⟨y, hy, rfl⟩ := List.mem_map.mp hrow
      simp

/-- Witness for the amended C9: the non-numeric token at `(0,0)` of
`badGridASCII` is stored as `0`; a lookup at `(-1, 0)` returns `0`; the
parse of `badGridASCII` still has 16 rows. -/
theorem heightParsing_defaults_witness :
    ((parseGrid 16 badGridASCII).getD 0 []).getD 0 1 = 0 ∧
    LevelChunk.getBlockHeight
      (LevelChunk.loadFromASCII badGridASCII "" "" "" "").1 (-1) 0 = 0 ∧
    (parseGrid 16 badGridASCII).length = 16 ∧
    (LevelChunk.loadFromASCII badGridASCII "" "" "" "").2 = [] :=
  ⟨heightParsing_defaults.1 badGridASCII 0 0 (by norm_num) (by norm_num) (by decide),
   heightParsing_defaults.2.2.1
     (LevelChunk.loadFromASCII badGridASCII "" "" "" "").1 (-1) 0
     (Or.inl (by norm_num)),
   (heightParsing_defaults.2.2.2 badGridASCII).1,
   heightParsing_defaults.2.1 badGridASCII "" "" "" ""⟩
